import Mathlib

/-!
Shallow embedding of the QR-tracking verification scripts
(`verify_all_participants.py` and `verify_final_data.py`).

Python strings are modelled as Lean `String`/`List Char` (ASCII case
mapping), Python `int` as `Int`, Python `None` as `Option`, and code that
can raise as `Except String`.  Database/spreadsheet cells that may be
missing are `Option` values.
-/

deriving instance DecidableEq for Except

namespace QRT

/-- Python whitespace characters (ASCII range), as used by `str.strip`. -/
def isPyWs (c : Char) : Bool :=
  c = ' ' || c = '\t' || c = '\n' || c = '\r' || c = '\x0b' || c = '\x0c'

/-- `str.strip()` on a character list: drop whitespace from both ends. -/
def stripL (l : List Char) : List Char :=
  ((l.dropWhile isPyWs).reverse.dropWhile isPyWs).reverse

/-- `str.strip()` on strings. -/
def pyStrip (s : String) : String := String.mk (stripL s.toList)

/-- `str.lower()` (ASCII case mapping). -/
def lowerL (l : List Char) : List Char := l.map Char.toLower

/-- `str.upper()` (ASCII case mapping). -/
def upperL (l : List Char) : List Char := l.map Char.toUpper

/-- If `pat` is a prefix of `l`, return the rest of `l`, else `none`. -/
def dropPref : List Char → List Char → Option (List Char)
  | [], l => some l
  | _ :: _, [] => none
  | p :: ps, c :: cs => if p = c then dropPref ps cs else none

/-- Fuelled core of Python's `str.replace` (all occurrences, scanning
left to right, skipping the matched pattern). -/
def replaceFuel (pat rep : List Char) : Nat → List Char → List Char
  | _, [] => []
  | 0, l => l
  | Nat.succ n, c :: cs =>
    match dropPref pat (c :: cs) with
    | some rest => rep ++ replaceFuel pat rep n rest
    | none => c :: replaceFuel pat rep n cs

/-- `str.replace(pat, rep)` on character lists (fuel = input length,
which bounds the number of scanning steps). -/
def replL (pat rep l : List Char) : List Char :=
  replaceFuel pat rep l.length l

/-- Python slice `s[-n:]`: the last `n` characters. -/
def lastN (n : Nat) (l : List Char) : List Char := l.drop (l.length - n)

/-- The decimal digit character for `n < 10`. -/
def digitChar10 : Nat → Char
  | 0 => '0' | 1 => '1' | 2 => '2' | 3 => '3' | 4 => '4'
  | 5 => '5' | 6 => '6' | 7 => '7' | 8 => '8' | _ => '9'

/-- Fuelled most-significant-first decimal rendering of a natural. -/
def natDigitsAux : Nat → Nat → List Char
  | 0, _ => []
  | Nat.succ fuel, n =>
    if n < 10 then [digitChar10 n]
    else natDigitsAux fuel (n / 10) ++ [digitChar10 (n % 10)]

/-- Decimal digits of a natural number, most significant first. -/
def natDigits (n : Nat) : List Char := natDigitsAux (n + 1) n

/-- Decimal rendering of a Python `int`. -/
def intStr (i : Int) : String :=
  match i with
  | .ofNat n => String.mk (natDigits n)
  | .negSucc n => String.mk ('-' :: natDigits (n + 1))

/-- Digit-and-underscore tail of Python `int()` literal parsing: after a
first digit, digits may follow, with single underscores only between
digits. -/
def parseDigitsRest : List Char → Nat → Option Nat
  | [], acc => some acc
  | c :: cs, acc =>
    if c.isDigit then parseDigitsRest cs (acc * 10 + (c.toNat - 48))
    else if c = '_' then
      match cs with
      | [] => none
      | d :: ds =>
        if d.isDigit then parseDigitsRest ds (acc * 10 + (d.toNat - 48))
        else none
    else none

/-- Nonempty digit sequence (first char must be a digit). -/
def parseUnsigned : List Char → Option Nat
  | [] => none
  | c :: cs => if c.isDigit then parseDigitsRest cs (c.toNat - 48) else none

/-- Optional sign followed by digits. -/
def parseSigned : List Char → Option Int
  | '-' :: rest => (parseUnsigned rest).map (fun n => -(n : Int))
  | '+' :: rest => (parseUnsigned rest).map (fun n => (n : Int))
  | l => (parseUnsigned l).map (fun n => (n : Int))

/-- Python `int(s)` on a string: strips whitespace, optional sign, then a
nonempty digit sequence; `none` models a raised `ValueError`. -/
def pyIntOfString (s : String) : Option Int :=
  parseSigned (stripL s.toList)

/-- Does `l` contain `pat` as a contiguous substring (Python `in`)? -/
def hasSub (pat : List Char) : List Char → Bool
  | [] => pat.isEmpty
  | c :: cs => (dropPref pat (c :: cs)).isSome || hasSub pat cs

/-- Python `pat in s` for strings. -/
def containsSub (s pat : String) : Bool := hasSub pat.toList s.toList

/-- The QR-token marker `"PALITANA_YATRA_"`. -/
def palTag : String := "PALITANA_YATRA_"

/-- `extract_badge_number` from both scripts:

    if qr_token and 'PALITANA_YATRA_' in qr_token:
        return int(qr_token.replace('PALITANA_YATRA_', ''))
    return None

`.error` models the uncaught `ValueError` raised by `int` when the
remainder after removing the marker is not an integer literal. -/
def extract_badge_number (qr_token : Option String) : Except String (Option Int) :=
  match qr_token with
  | none => .ok none
  | some s =>
    if s ≠ "" && containsSub s palTag then
      match pyIntOfString (String.mk (replL palTag.toList [] s.toList)) with
      | some n => .ok (some n)
      | none => .error "ValueError: invalid literal for int"
    else .ok none

/-- A scalar value as it comes out of the database driver or the
spreadsheet reader: a Python `int` or a `str`. -/
inductive PyScalar where
  | i (n : Int)
  | s (s : String)
deriving DecidableEq

/-- Python `str(v)`. -/
def strOfScalar : PyScalar → String
  | .i n => intStr n
  | .s s => s

/-- Python `int(v)` on a scalar: identity on ints, literal parsing on
strings (`none` models a raised `ValueError`). -/
def pyIntOfVal : PyScalar → Option Int
  | .i n => some n
  | .s s => pyIntOfString s

/-- A row of the `participants` table (nullable columns are `Option`). -/
structure Participant where
  uuid : Option String
  name : Option String
  mobile : Option String
  qrToken : Option String
  emergencyContact : Option String
  photoUri : Option String
  bloodGroup : Option String
  age : Option PyScalar
deriving DecidableEq

/-- The badge index built by both scripts:

    by_badge = {}
    for p in participants:
        badge = extract_badge_number(p['qrToken'])
        if badge:
            by_badge[badge] = p

Represented as an association list in which entries coming from later
records are placed in front, so that first-match lookup realises the
dict's last-write-wins overwriting.  `.error` models the uncaught
`ValueError` that `extract_badge_number` can raise mid-loop. -/
def by_badge : List Participant → Except String (List (Int × Participant))
  | [] => .ok []
  | p :: ps => do
    let ob ← extract_badge_number p.qrToken
    let rest ← by_badge ps
    match ob with
    | some b => if b = 0 then pure rest else pure (rest ++ [(b, p)])
    | none => pure rest

/-- Dict lookup `by_badge[b]` (first match = latest record). -/
def idxLookup (m : List (Int × Participant)) (b : Int) : Option Participant :=
  (m.find? (fun kv => kv.1 = b)).map (fun kv => kv.2)

/-- The checked badge range `range(1, 418)` as Python ints. -/
def cohort : List Int := (List.range 417).map (fun k => Int.ofNat (k + 1))

/-- Python truthiness failure of an optional string (`not x`). -/
def pyFalsy : Option String → Bool
  | none => true
  | some s => s = ""

/-- The critical fields reported missing by the completeness check. -/
def missingCritical (p : Participant) : List String :=
  (if pyFalsy p.name || pyStrip (p.name.getD "") = "" then ["name"] else []) ++
  (if pyFalsy p.uuid then ["uuid"] else []) ++
  (if pyFalsy p.qrToken then ["qrToken"] else [])

/-- One finding row `(badge, name, details)` of the completeness or
validity check. -/
structure Finding where
  badge : Int
  name : Option String
  details : List String
deriving DecidableEq

/-- `missing_badges`: badges of `range(1, 418)` absent from the index. -/
def missing_badges (m : List (Int × Participant)) : List Int :=
  cohort.filter (fun i => (idxLookup m i).isNone)

/-- The completeness check (`incomplete` in `main`). -/
def incomplete_data (m : List (Int × Participant)) : List Finding :=
  cohort.filterMap (fun b =>
    match idxLookup m b with
    | none => none
    | some p =>
      let mf := missingCritical p
      if mf.isEmpty then none else some ⟨b, p.name, mf⟩)

/-- Python `str(x)` of an optional string, formatting `None`. -/
def showOpt : Option String → String
  | none => "None"
  | some s => s

/-- The UUID validity test:
`not uuid or len(uuid) != 36 or uuid.count('-') != 4`. -/
def uuidBad (u : Option String) : Bool :=
  match u with
  | none => true
  | some s => s = "" || s.toList.length ≠ 36 || s.toList.count '-' ≠ 4

/-- UUID issue messages of the validity check. -/
def uuidIssues (p : Participant) : List String :=
  if uuidBad p.uuid then ["invalid UUID: " ++ showOpt p.uuid] else []

/-- QR-token issue messages of the validity check
(`p['qrToken'] != expected_token`). -/
def tokenIssues (b : Int) (p : Participant) : List String :=
  let expected := palTag ++ intStr b
  if p.qrToken ≠ some expected then
    ["wrong qrToken: expected " ++ expected ++ ", got " ++ showOpt p.qrToken]
  else []

/-- Age issue messages of the validity check: `int(p['age'])` guarded by
`try`, range test `1 <= age <= 120`. -/
def ageIssues (p : Participant) : List String :=
  match p.age with
  | none => []
  | some v =>
    match pyIntOfVal v with
    | some a => if a < 1 || a > 120 then ["invalid age: " ++ intStr a] else []
    | none => ["non-numeric age: " ++ strOfScalar v]

/-- All issue messages of the validity check for one record, in the
order the script appends them. -/
def issuesOf (b : Int) (p : Participant) : List String :=
  uuidIssues p ++ tokenIssues b p ++ ageIssues p

/-- The validity check (`invalid` in `main`). -/
def invalid_data (m : List (Int × Participant)) : List Finding :=
  cohort.filterMap (fun b =>
    match idxLookup m b with
    | none => none
    | some p =>
      let iss := issuesOf b p
      if iss.isEmpty then none else some ⟨b, p.name, iss⟩)

/-- `str.isdigit()` (ASCII): nonempty and all decimal digits. -/
def pyIsDigit (s : String) : Bool :=
  !s.toList.isEmpty && s.toList.all Char.isDigit

/-- Badge number derived from a QR file name: the leading token before
the first `'_'`, when it is all digits. -/
def fileBadge (f : String) : Option Int :=
  match f.splitOn "_" with
  | [] => none
  | p0 :: _ => if pyIsDigit p0 then pyIntOfString p0 else none

/-- `verify_qr_code_files`: `none` input models a missing directory, a
list input models the `*.png` glob listing.  Returns
`(sorted badge list?, error message?)` exactly as the script does. -/
def verify_qr_code_files (fs : Option (List String)) :
    Option (List Int) × Option String :=
  match fs with
  | none => (none, some "QR codes directory not found")
  | some files =>
    (some (List.insertionSort (fun a b => a ≤ b) (files.filterMap fileBadge)), none)

/-- `[i for i in range(1, 418) if i not in file_badges]`. -/
def pyMissingFiles (fb : List Int) : List Int :=
  cohort.filter (fun i => !fb.contains i)

/-- The `all_passed` aggregation at the end of `main`, including the
`if file_badges and ... elif file_badges:` truthiness chain. -/
def all_passed (mb : List Int) (fb : Option (List Int))
    (inc inv : List Finding) : Bool :=
  let fbTruthy := match fb with | none => false | some l => !l.isEmpty
  let filesBad := fbTruthy && !(pyMissingFiles (fb.getD [])).isEmpty
  !(!mb.isEmpty || filesBad || !inc.isEmpty || !inv.isEmpty)

/-- The structured report that `main` serialises to JSON. -/
structure Report where
  total_participants : Nat
  missing_badges : List Int
  incomplete_data : List Finding
  invalid_data : List Finding
  all_passed : Bool
deriving DecidableEq

/-- `main` of `verify_all_participants.py`: loads are given as inputs
(`db` rows, optional file listing), the report write is modelled by the
`writeOk` flag — the script opens the output file with no `try`, so a
write failure propagates as an error. -/
def mainAll (db : List Participant) (fs : Option (List String))
    (writeOk : Bool) : Except String Report := do
  let m ← by_badge db
  let mb := missing_badges m
  let (fb, _err) := verify_qr_code_files fs
  let inc := incomplete_data m
  let inv := invalid_data m
  let ap := all_passed mb fb inc inv
  if writeOk then
    .ok ⟨db.length, mb, inc, inv, ap⟩
  else
    .error "report write failed"

/-- `normalize_name`: `'' if missing else str(name).strip().lower()`. -/
def normalize_name (x : Option PyScalar) : String :=
  match x with
  | none => ""
  | some v => String.mk (lowerL (stripL (strOfScalar v).toList))

/-- `normalize_phone`:
`str(phone).strip().replace(' ', '').replace('-', '').replace('+91', '')[-10:]`. -/
def normalize_phone (x : Option PyScalar) : String :=
  match x with
  | none => ""
  | some v =>
    String.mk (lastN 10 (replL ['+', '9', '1'] []
      (replL ['-'] [] (replL [' '] [] (stripL (strOfScalar v).toList)))))

/-- `normalize_blood_group`: `str(bg).strip().upper().replace(' ', '')`. -/
def normalize_blood_group (x : Option PyScalar) : String :=
  match x with
  | none => ""
  | some v => String.mk (replL [' '] [] (upperL (stripL (strOfScalar v).toList)))

/-- A positional row of the `Final Data` sheet: cells may be absent
(`pd.isna`) or hold a scalar. -/
structure Row where
  name : Option PyScalar
  badge : Option PyScalar
  age : Option PyScalar
  blood : Option PyScalar
  emergency : Option PyScalar
  photo : Option PyScalar
deriving DecidableEq

/-- `str(cell).strip() if not pd.isna(cell) else ''`. -/
def cellStr : Option PyScalar → String
  | none => ""
  | some v => pyStrip (strOfScalar v)

/-- `int(row[badge_col]) if not pd.isna(row[badge_col]) else None`;
`.error` models the uncaught `ValueError` on a non-numeric cell. -/
def rowBadge : Option PyScalar → Except String (Option Int)
  | none => .ok none
  | some (.i n) => .ok (some n)
  | some (.s s) =>
    match pyIntOfString s with
    | some n => .ok (some n)
    | none => .error "ValueError: invalid literal for int"

/-- Python `int(float(s))`: optional sign, digits with an optional
fractional part, truncated toward zero (`none` models `ValueError`). -/
def pyFloatTrunc (s : String) : Option Int :=
  let l := stripL s.toList
  let core : List Char → Option Int := fun ds =>
    match ds.span Char.isDigit with
    | (intPart, rest) =>
      match rest with
      | [] => if intPart.isEmpty then none
              else (parseUnsigned intPart).map (fun n => (n : Int))
      | '.' :: frac =>
        if frac.all Char.isDigit ∧ ¬(intPart.isEmpty ∧ frac.isEmpty) then
          some ((intPart.foldl (fun a c => a * 10 + (c.toNat - 48)) 0 : Nat) : Int)
        else none
      | _ => none
  match l with
  | '-' :: rest => (core rest).map (fun n => -n)
  | '+' :: rest => core rest
  | rest => core rest

/-- The Excel-age parse of `compare_data`:
`str(raw).strip().lower().replace('years', '').replace('year', '').strip()`
then `int(float(...))` guarded by `try`. -/
def rowAge : Option PyScalar → Option Int
  | none => none
  | some v =>
    let s1 := stripL (strOfScalar v).toList
    let s2 := lowerL s1
    let s3 := replL ['y', 'e', 'a', 'r', 's'] [] s2
    let s4 := replL ['y', 'e', 'a', 'r'] [] s3
    pyFloatTrunc (String.mk (stripL s4))

/-- `str(db_record[f]).strip() if db_record[f] else ''`. -/
def dbFieldStr : Option String → String
  | none => ""
  | some s => pyStrip s

/-- Python `==` between an int and a DB scalar (`int == str` is `False`). -/
def scalarEqInt : PyScalar → Int → Bool
  | .i n, a => n = a
  | .s _, _ => false

/-- Name comparison messages (`compare_data`, always compared). -/
def nameIssue (row : Row) (p : Participant) : List String :=
  if normalize_name (some (.s (cellStr row.name))) ≠
      normalize_name (some (.s (dbFieldStr p.name))) then
    ["Name mismatch: Excel=" ++ cellStr row.name ++ " vs DB=" ++ dbFieldStr p.name]
  else []

/-- Age comparison messages (`compare_data`). -/
def ageIssue (row : Row) (p : Participant) : List String :=
  match rowAge row.age, p.age with
  | some ea, some dv =>
    if !scalarEqInt dv ea then
      ["Age mismatch: Excel=" ++ intStr ea ++ " vs DB=" ++ strOfScalar dv]
    else []
  | some ea, none => ["Age missing in DB: Excel=" ++ intStr ea]
  | none, _ => []

/-- Blood-group comparison messages (`compare_data`): a difference is
reported only when the Excel cell is truthy. -/
def bloodIssue (row : Row) (p : Participant) : List String :=
  if normalize_blood_group (some (.s (cellStr row.blood))) ≠
      normalize_blood_group (some (.s (dbFieldStr p.bloodGroup))) then
    if cellStr row.blood ≠ "" then
      ["Blood group mismatch: Excel=" ++ cellStr row.blood ++
        " vs DB=" ++ dbFieldStr p.bloodGroup]
    else []
  else []

/-- Emergency-contact comparison messages (`compare_data`): a difference
is reported only when the normalized Excel value is truthy. -/
def emergIssue (row : Row) (p : Participant) : List String :=
  if normalize_phone row.emergency ≠ normalize_phone (p.emergencyContact.map .s) then
    if normalize_phone row.emergency ≠ "" then
      ["Emergency contact mismatch: Excel=" ++ normalize_phone row.emergency ++
        " vs DB=" ++ normalize_phone (p.emergencyContact.map .s)]
    else []
  else []

/-- Photo comparison message (`compare_data`): flagged only when Excel
has a link and the DB field is empty. -/
def photoIssue (row : Row) (p : Participant) : List String :=
  if cellStr row.photo ≠ "" && dbFieldStr p.photoUri = "" then
    ["Photo missing in DB: Excel has photo link"]
  else []

/-- All field-comparison messages for one row, in append order. -/
def rowIssues (row : Row) (p : Participant) : List String :=
  nameIssue row p ++ ageIssue row p ++ bloodIssue row p ++
    emergIssue row p ++ photoIssue row p

/-- A discrepancy record of `compare_data` (`db_name` is absent for
`MISSING_IN_DB`). -/
structure Discrepancy where
  badge : Int
  issue : String
  excel_name : String
  db_name : Option String
  details : String
deriving DecidableEq

/-- Processing of one Excel row against the badge index: the optional
discrepancy it contributes and its contribution to `matches`. -/
def rowStep (m : List (Int × Participant)) (row : Row) :
    Except String (Option Discrepancy × Nat) := do
  let ob ← rowBadge row.badge
  match ob with
  | none => .ok (none, 0)
  | some b =>
    match idxLookup m b with
    | none =>
      .ok (some ⟨b, "MISSING_IN_DB", cellStr row.name, none,
        "Badge #" ++ intStr b ++ " (" ++ cellStr row.name ++
          ") not found in database"⟩, 0)
    | some p =>
      let iss := rowIssues row p
      if iss.isEmpty then .ok (none, 1)
      else
        .ok (some ⟨b, "DATA_MISMATCH", cellStr row.name,
          some (dbFieldStr p.name), String.intercalate "; " iss⟩, 0)

/-- The row loop of `compare_data`, preserving spreadsheet row order in
the discrepancy list. -/
def compareRows (m : List (Int × Participant)) :
    List Row → Except String (List Discrepancy × Nat)
  | [] => .ok ([], 0)
  | r :: rs => do
    let st ← rowStep m r
    let (ds, k) ← compareRows m rs
    .ok (st.1.toList ++ ds, st.2 + k)

/-- `compare_data(excel_df, db_participants)`:
builds the badge index and walks the Excel rows. -/
def compare_data (rows : List Row) (db : List Participant) :
    Except String (List Discrepancy × Nat) := do
  let m ← by_badge db
  compareRows m rows

/-- The textual verification summary printed by `main` of
`verify_final_data.py` after the compare phase. -/
def summaryLines (ds : List Discrepancy) (k : Nat) : List String :=
  ["Matching records: " ++ intStr (k : Int),
   "Discrepancies found: " ++ intStr (ds.length : Int)] ++
  ds.map (fun d =>
    "Badge #" ++ intStr d.badge ++ " - " ++ d.excel_name ++
      " Issue: " ++ d.issue ++ " Details: " ++ d.details)

/-- `main` of `verify_final_data.py`: the summary is printed before the
report write; the write is a bare `open`/`json.dump`, so on failure
(`writeOk = false`) the error propagates after the summary was already
printed. -/
def mainFinal (rows : List Row) (db : List Participant) (writeOk : Bool) :
    List String × Except String Unit :=
  match compare_data rows db with
  | .error e => ([], .error e)
  | .ok (ds, k) =>
    let out := summaryLines ds k
    if writeOk then (out ++ ["Report saved to verification_report.json"], .ok ())
    else (out, .error "report write failed")

/-- The non-space predicate used to describe space removal. -/
def notSpace (c : Char) : Bool := !(c == ' ')

/-- The accumulator step of decimal parsing. -/
def digStep (a : Nat) (c : Char) : Nat := a * 10 + (c.toNat - 48)

/-- The record occurring latest in iteration order among those whose
token derives badge `b`. -/
def lastDeriving (ps : List Participant) (b : Int) : Option Participant :=
  ps.reverse.find? (fun p => extract_badge_number p.qrToken == .ok (some b))

/-- The findings part of a report (everything except the record total). -/
def reportFindings (r : Report) : List Int × List Finding × List Finding × Bool :=
  (r.missing_badges, r.incomplete_data, r.invalid_data, r.all_passed)

/-! ### Concrete runs used by witnesses and counterexamples -/

/-- A well-formed 36-character UUID (8-4-4-4-12 with 4 separators). -/
def goodUuid : String := "00000000-0000-0000-0000-000000000000"

/-- A fully valid participant record for badge `b`. -/
def goodP (b : Int) : Participant :=
  ⟨some goodUuid, some "A", none, some (palTag ++ intStr b), none, none, none, none⟩

/-- A database holding exactly the valid participants for badges 1..417. -/
def goodDb : List Participant :=
  (List.range 417).map (fun k => goodP (Int.ofNat (k + 1)))

/-- A record whose token derives badge 418 and whose uuid is invalid. -/
def p418 : Participant :=
  ⟨some "x", some "A", none, some "PALITANA_YATRA_418", none, none, none, none⟩

/-- A DB record for badge 2 with a non-empty name. -/
def pJohn : Participant :=
  ⟨some goodUuid, some "John", none, some "PALITANA_YATRA_2", none, none, none, none⟩

/-- A spreadsheet row for badge 2 whose data cells are all absent. -/
def blankRow : Row := ⟨none, some (.i 2), none, none, none, none⟩

/-- The discrepancy produced by comparing `blankRow` against `pJohn`. -/
def dJohn : Discrepancy :=
  ⟨2, "DATA_MISMATCH", "", some "John", "Name mismatch: Excel= vs DB=John"⟩

/-- DB records for badges 5 and 2 with names that mismatch the rows below. -/
def p5 : Participant :=
  ⟨some goodUuid, some "A", none, some "PALITANA_YATRA_5", none, none, none, none⟩

def p2 : Participant :=
  ⟨some goodUuid, some "B", none, some "PALITANA_YATRA_2", none, none, none, none⟩

/-- Spreadsheet rows listed in the order badge 5 then badge 2. -/
def row5 : Row := ⟨some (.s "X"), some (.i 5), none, none, none, none⟩

def row2 : Row := ⟨some (.s "Y"), some (.i 2), none, none, none, none⟩

/-- Badge numbers of a compare run's discrepancy list. -/
def discBadges : Except String (List Discrepancy × Nat) → List Int
  | .ok (ds, _) => ds.map Discrepancy.badge
  | .error _ => []

/-- Two records deriving the same badge 7 (collision). -/
def pColA : Participant :=
  ⟨some goodUuid, some "first", none, some "PALITANA_YATRA_7", none, none, none, none⟩

def pColB : Participant :=
  ⟨some goodUuid, some "second", none, some "PALITANA_YATRA_7", none, none, none, none⟩

/-- A record whose token derives badge 0. -/
def pZero : Participant :=
  ⟨some goodUuid, some "zero", none, some "PALITANA_YATRA_0", none, none, none, none⟩

/-- A record at badge 2 with an invalid uuid and age 121. -/
def pBad : Participant :=
  ⟨some "x", some "B", none, some "PALITANA_YATRA_2", none, none, none,
    some (.i 121)⟩

/-- A one-record badge index holding `pBad` at badge 2. -/
def mBad : List (Int × Participant) := [(2, pBad)]

/-- The badge index that `by_badge` builds from `goodDb`. -/
def goodIdx : List (Int × Participant) :=
  ((List.range 417).map
    (fun k => (Int.ofNat (k + 1), goodP (Int.ofNat (k + 1))))).reverse

/-! ### Character-level lemmas -/

theorem char_eq_iff {c d : Char} : c = d ↔ c.toNat = d.toNat := by
  constructor
  · intro h; rw [h]
  · intro h; exact Char.ext (UInt32.ext_iff.mpr h)

theorem toNat_charOfNat {n : Nat} (h : n < 55296) : (Char.ofNat n).toNat = n := by
  rw [Char.ofNat, dif_pos (Or.inl h)]
  rfl

theorem toNat_toLower (c : Char) :
    (Char.toLower c).toNat =
      if c.toNat ≥ 65 ∧ c.toNat ≤ 90 then c.toNat + 32 else c.toNat := by
  show (if c.toNat ≥ 65 ∧ c.toNat ≤ 90 then Char.ofNat (c.toNat + 32) else c).toNat = _
  by_cases h : c.toNat ≥ 65 ∧ c.toNat ≤ 90
  · rw [if_pos h, if_pos h]
    exact toNat_charOfNat (by omega)
  · rw [if_neg h, if_neg h]

theorem toNat_toUpper (c : Char) :
    (Char.toUpper c).toNat =
      if c.toNat ≥ 97 ∧ c.toNat ≤ 122 then c.toNat - 32 else c.toNat := by
  show (if c.toNat ≥ 97 ∧ c.toNat ≤ 122 then Char.ofNat (c.toNat - 32) else c).toNat = _
  by_cases h : c.toNat ≥ 97 ∧ c.toNat ≤ 122
  · rw [if_pos h, if_pos h]
    exact toNat_charOfNat (by omega)
  · rw [if_neg h, if_neg h]

theorem toLower_toLower (c : Char) : c.toLower.toLower = c.toLower := by
  rw [char_eq_iff, toNat_toLower (Char.toLower c), toNat_toLower c]
  split_ifs <;> omega

theorem toUpper_toUpper (c : Char) : c.toUpper.toUpper = c.toUpper := by
  rw [char_eq_iff, toNat_toUpper (Char.toUpper c), toNat_toUpper c]
  split_ifs <;> omega

theorem isPyWs_toNat (c : Char) :
    isPyWs c = true ↔
      (c.toNat = 32 ∨ c.toNat = 9 ∨ c.toNat = 10 ∨ c.toNat = 13 ∨
        c.toNat = 11 ∨ c.toNat = 12) := by
  simp only [isPyWs, Bool.or_eq_true, decide_eq_true_eq, char_eq_iff]
  have h1 : (' ').toNat = 32 := rfl
  have h2 : ('\t').toNat = 9 := rfl
  have h3 : ('\n').toNat = 10 := rfl
  have h4 : ('\r').toNat = 13 := rfl
  have h5 : ('\x0b').toNat = 11 := rfl
  have h6 : ('\x0c').toNat = 12 := rfl
  rw [h1, h2, h3, h4, h5, h6]
  tauto

theorem isPyWs_toLower (c : Char) : isPyWs c.toLower = isPyWs c := by
  by_cases h : c.toNat ≥ 65 ∧ c.toNat ≤ 90
  · have h1 : isPyWs c.toLower = false := by
      rw [← Bool.not_eq_true, isPyWs_toNat, toNat_toLower, if_pos h]; omega
    have h2 : isPyWs c = false := by
      rw [← Bool.not_eq_true, isPyWs_toNat]; omega
    rw [h1, h2]
  · have : c.toLower = c := by
      rw [char_eq_iff, toNat_toLower, if_neg h]
    rw [this]

theorem isPyWs_toUpper (c : Char) : isPyWs c.toUpper = isPyWs c := by
  by_cases h : c.toNat ≥ 97 ∧ c.toNat ≤ 122
  · have h1 : isPyWs c.toUpper = false := by
      rw [← Bool.not_eq_true, isPyWs_toNat, toNat_toUpper, if_pos h]; omega
    have h2 : isPyWs c = false := by
      rw [← Bool.not_eq_true, isPyWs_toNat]; omega
    rw [h1, h2]
  · have : c.toUpper = c := by
      rw [char_eq_iff, toNat_toUpper, if_neg h]
    rw [this]

theorem toUpper_eq_space_iff (c : Char) : (c.toUpper = ' ') ↔ (c = ' ') := by
  rw [char_eq_iff, char_eq_iff, toNat_toUpper]
  have : (' ').toNat = 32 := by decide
  rw [this]
  by_cases h : c.toNat ≥ 97 ∧ c.toNat ≤ 122
  · rw [if_pos h]; omega
  · rw [if_neg h]

/-! ### Strip lemmas -/

theorem stripL_eq (l : List Char) :
    stripL l = List.rdropWhile isPyWs (List.dropWhile isPyWs l) := rfl

theorem headq_stripL_not (l : List Char) {c : Char}
    (h : (stripL l).head? = some c) : isPyWs c = false := by
  obtain ⟨t, ht⟩ := List.rdropWhile_prefix isPyWs (List.dropWhile isPyWs l)
  have hdw : (List.dropWhile isPyWs l).head? = some c := by
    rw [← ht, List.head?_append]
    rw [stripL_eq] at h
    rw [h]
    rfl
  have := List.head?_dropWhile_not isPyWs l
  rw [hdw] at this
  exact this

theorem lastq_stripL_not (l : List Char) {c : Char}
    (h : (stripL l).getLast? = some c) : isPyWs c = false := by
  unfold stripL at h
  rw [List.getLast?_reverse] at h
  have := List.head?_dropWhile_not isPyWs (l.dropWhile isPyWs).reverse
  rw [h] at this
  exact this

theorem stripL_eq_self {l : List Char}
    (h1 : ∀ c, l.head? = some c → isPyWs c = false)
    (h2 : ∀ c, l.getLast? = some c → isPyWs c = false) :
    stripL l = l := by
  have hd : List.dropWhile isPyWs l = l := by
    apply List.dropWhile_eq_self_iff.mpr
    intro hl
    have h0 : l.head? = some (l.get ⟨0, hl⟩) := by
      rw [List.get_mk_zero]
      exact List.head?_eq_head _
    simpa using h1 _ h0
  have hr : List.rdropWhile isPyWs l = l := by
    apply List.rdropWhile_eq_self_iff.mpr
    intro hl
    simp [h2 _ (List.getLast?_eq_getLast l hl)]
  rw [stripL_eq, hd, hr]

theorem stripL_stripL (l : List Char) : stripL (stripL l) = stripL l :=
  stripL_eq_self (fun _ h => headq_stripL_not l h) (fun _ h => lastq_stripL_not l h)

theorem stripL_map {f : Char → Char} (hf : ∀ c, isPyWs (f c) = isPyWs c)
    (l : List Char) : stripL (l.map f) = (stripL l).map f := by
  have hpf : (isPyWs ∘ f) = isPyWs := funext hf
  have hdw : ∀ m : List Char,
      List.dropWhile isPyWs (m.map f) = (List.dropWhile isPyWs m).map f := by
    intro m
    rw [List.dropWhile_map, hpf]
  unfold stripL
  rw [hdw, ← List.map_reverse, hdw, List.map_reverse]

/-! ### Replace lemmas -/

theorem replaceFuel_space {l : List Char} {fuel : Nat} (h : l.length ≤ fuel) :
    replaceFuel [' '] [] fuel l = l.filter notSpace := by
  induction l generalizing fuel with
  | nil => cases fuel <;> rfl
  | cons c cs ih =>
    match fuel with
    | 0 => simp at h
    | Nat.succ n =>
      have hlen : cs.length ≤ n := by simpa using h
      show (match dropPref [' '] (c :: cs) with
        | some rest => [] ++ replaceFuel [' '] [] n rest
        | none => c :: replaceFuel [' '] [] n cs) = _
      by_cases hc : c = ' '
      · subst hc
        have hdp : dropPref [' '] (' ' :: cs) = some cs := by
          show (if ' ' = ' ' then dropPref [] cs else none) = some cs
          rw [if_pos rfl]
          rfl
        rw [hdp]
        have hns : notSpace ' ' = false := by decide
        simp [List.filter_cons, hns, ih hlen]
      · have hdp : dropPref [' '] (c :: cs) = none := by
          show (if ' ' = c then dropPref [] cs else none) = none
          rw [if_neg (fun hh => hc hh.symm)]
        rw [hdp]
        have hns : notSpace c = true := by
          simp [notSpace, hc]
        simp [List.filter_cons, hns, ih hlen]

theorem replL_space (l : List Char) : replL [' '] [] l = l.filter notSpace :=
  replaceFuel_space (Nat.le_refl _)

theorem dropPref_append (pat rest : List Char) :
    dropPref pat (pat ++ rest) = some rest := by
  induction pat with
  | nil => rfl
  | cons p ps ih =>
    show (if p = p then dropPref ps (ps ++ rest) else none) = some rest
    rw [if_pos rfl, ih]

theorem replaceFuel_notin {pc : Char} {pt l : List Char} {rep : List Char}
    (h : ∀ c ∈ l, c ≠ pc) (fuel : Nat) :
    replaceFuel (pc :: pt) rep fuel l = l := by
  induction l generalizing fuel with
  | nil => cases fuel <;> rfl
  | cons c cs ih =>
    match fuel with
    | 0 => rfl
    | Nat.succ n =>
      have hc : c ≠ pc := h c (List.mem_cons_self c cs)
      show (match dropPref (pc :: pt) (c :: cs) with
        | some rest => rep ++ replaceFuel (pc :: pt) rep n rest
        | none => c :: replaceFuel (pc :: pt) rep n cs) = _
      have hdp : dropPref (pc :: pt) (c :: cs) = none := by
        show (if pc = c then dropPref pt cs else none) = none
        rw [if_neg (fun hh => hc hh.symm)]
      rw [hdp]
      rw [ih (fun d hd => h d (List.mem_cons_of_mem c hd))]

theorem replaceFuel_front {pc : Char} {pt rest : List Char} {n : Nat} :
    replaceFuel (pc :: pt) [] (n + 1) ((pc :: pt) ++ rest) =
      replaceFuel (pc :: pt) [] n rest := by
  show (match dropPref (pc :: pt) (pc :: (pt ++ rest)) with
    | some r => [] ++ replaceFuel (pc :: pt) [] n r
    | none => pc :: replaceFuel (pc :: pt) [] n (pt ++ rest)) = _
  have := dropPref_append (pc :: pt) rest
  rw [show pc :: (pt ++ rest) = (pc :: pt) ++ rest from rfl, this]
  rfl

/-! ### Normalizer idempotence lemmas -/

theorem toList_mk (l : List Char) : (String.mk l).toList = l := rfl

theorem lowerL_lowerL (l : List Char) : lowerL (lowerL l) = lowerL l := by
  unfold lowerL
  rw [List.map_map]
  apply List.map_congr_left
  intro c _
  exact toLower_toLower c

theorem upperL_upperL (l : List Char) : upperL (upperL l) = upperL l := by
  unfold upperL
  rw [List.map_map]
  apply List.map_congr_left
  intro c _
  exact toUpper_toUpper c

theorem normalize_name_idem (x : Option PyScalar) :
    normalize_name (some (.s (normalize_name x))) = normalize_name x := by
  cases x with
  | none => rfl
  | some v =>
    show String.mk (lowerL (stripL (lowerL (stripL (strOfScalar v).toList)))) =
      String.mk (lowerL (stripL (strOfScalar v).toList))
    congr 1
    rw [show lowerL (stripL (strOfScalar v).toList) =
        (stripL (strOfScalar v).toList).map Char.toLower from rfl]
    rw [stripL_map isPyWs_toLower, stripL_stripL]
    exact lowerL_lowerL _

theorem notSpace_of_not_ws {c : Char} (h : isPyWs c = false) : notSpace c = true := by
  unfold notSpace
  have : c ≠ ' ' := by
    intro hc
    subst hc
    simp [isPyWs] at h
  simp [this]

theorem headq_filter_notSpace {u : List Char}
    (h : ∀ c, u.head? = some c → isPyWs c = false) :
    ∀ c, (u.filter notSpace).head? = some c → isPyWs c = false := by
  intro c hc
  cases u with
  | nil => simp at hc
  | cons d rest =>
    have hd : isPyWs d = false := h d rfl
    rw [List.filter_cons, if_pos (notSpace_of_not_ws hd)] at hc
    simp at hc
    rw [hc] at hd
    exact hd

theorem lastq_filter_notSpace {u : List Char}
    (h : ∀ c, u.getLast? = some c → isPyWs c = false) :
    ∀ c, (u.filter notSpace).getLast? = some c → isPyWs c = false := by
  intro c hc
  rw [← List.head?_reverse, ← List.filter_reverse] at hc
  have hrev : ∀ d, u.reverse.head? = some d → isPyWs d = false := by
    intro d hd
    rw [List.head?_reverse] at hd
    exact h d hd
  exact headq_filter_notSpace hrev c hc

theorem notSpace_toUpper (c : Char) : notSpace c.toUpper = notSpace c := by
  unfold notSpace
  by_cases h : c = ' '
  · subst h; rfl
  · have h2 : c.toUpper ≠ ' ' := fun hh => h ((toUpper_eq_space_iff c).mp hh)
    simp [h, h2]

theorem upperL_headq {l : List Char}
    (h : ∀ c, l.head? = some c → isPyWs c = false) :
    ∀ c, (upperL l).head? = some c → isPyWs c = false := by
  intro c hc
  unfold upperL at hc
  rw [List.head?_map] at hc
  cases hl : l.head? with
  | none => rw [hl] at hc; simp at hc
  | some d =>
    rw [hl] at hc
    simp at hc
    rw [← hc]
    rw [isPyWs_toUpper]
    exact h d hl

theorem upperL_lastq {l : List Char}
    (h : ∀ c, l.getLast? = some c → isPyWs c = false) :
    ∀ c, (upperL l).getLast? = some c → isPyWs c = false := by
  intro c hc
  unfold upperL at hc
  rw [List.getLast?_map] at hc
  cases hl : l.getLast? with
  | none => rw [hl] at hc; simp at hc
  | some d =>
    rw [hl] at hc
    simp at hc
    rw [← hc]
    rw [isPyWs_toUpper]
    exact h d hl

theorem normalize_blood_group_idem (x : Option PyScalar) :
    normalize_blood_group (some (.s (normalize_blood_group x))) =
      normalize_blood_group x := by
  cases x with
  | none => rfl
  | some v =>
    show String.mk (replL [' '] []
        (upperL (stripL (replL [' '] [] (upperL (stripL (strOfScalar v).toList)))))) =
      String.mk (replL [' '] [] (upperL (stripL (strOfScalar v).toList)))
    congr 1
    set t := (strOfScalar v).toList with ht
    set u := upperL (stripL t) with hu
    have hhead : ∀ c, u.head? = some c → isPyWs c = false :=
      upperL_headq (fun c hc => headq_stripL_not t hc)
    have hlast : ∀ c, u.getLast? = some c → isPyWs c = false :=
      upperL_lastq (fun c hc => lastq_stripL_not t hc)
    rw [replL_space u, replL_space]
    have hstrip : stripL (u.filter notSpace) = u.filter notSpace :=
      stripL_eq_self (headq_filter_notSpace hhead) (lastq_filter_notSpace hlast)
    rw [hstrip]
    have hupper : upperL (u.filter notSpace) = u.filter notSpace := by
      have h1 : List.filter notSpace (List.map Char.toUpper u) =
          List.map Char.toUpper (List.filter notSpace u) := by
        rw [List.filter_map]
        congr 1
        apply List.filter_congr
        intro c _
        exact notSpace_toUpper c
      show List.map Char.toUpper (u.filter notSpace) = u.filter notSpace
      rw [← h1]
      congr 1
      show upperL u = u
      rw [hu]
      exact upperL_upperL _
    rw [hupper, List.filter_filter]
    apply List.filter_congr
    intro c _
    rw [Bool.and_self]

/-! ### Token round-trip lemmas -/

theorem toList_append (a b : String) : (a ++ b).toList = a.toList ++ b.toList := rfl

theorem hasSub_front {pc : Char} {pt rest : List Char} :
    hasSub (pc :: pt) ((pc :: pt) ++ rest) = true := by
  show ((dropPref (pc :: pt) (pc :: (pt ++ rest))).isSome || _) = true
  rw [show pc :: (pt ++ rest) = (pc :: pt) ++ rest from rfl, dropPref_append]
  rfl

theorem replL_token {pc : Char} {pt ds : List Char} (hds : ∀ c ∈ ds, c ≠ pc) :
    replL (pc :: pt) [] ((pc :: pt) ++ ds) = ds := by
  unfold replL
  rw [show ((pc :: pt) ++ ds).length = (pt ++ ds).length + 1 by simp]
  rw [replaceFuel_front]
  exact replaceFuel_notin hds _

/-! ### Decimal digit lemmas -/

theorem isDigit_toNat (c : Char) : c.isDigit = true ↔ 48 ≤ c.toNat ∧ c.toNat ≤ 57 := by
  simp [Char.isDigit, Char.toNat, UInt32.le_def, BitVec.le_def]
  constructor
  · intro h; exact ⟨h.1, h.2⟩
  · intro h; exact ⟨h.1, h.2⟩

theorem digitChar10_isDigit (k : Nat) : (digitChar10 k).isDigit = true := by
  unfold digitChar10
  split <;> decide

theorem digitChar10_toNat {k : Nat} (h : k < 10) : (digitChar10 k).toNat = 48 + k := by
  interval_cases k <;> decide

theorem natDigitsAux_ne_nil {fuel n : Nat} (h : n < fuel) :
    natDigitsAux fuel n ≠ [] := by
  match fuel with
  | 0 => omega
  | Nat.succ f =>
    show (if n < 10 then [digitChar10 n]
      else natDigitsAux f (n / 10) ++ [digitChar10 (n % 10)]) ≠ []
    split <;> simp

theorem natDigitsAux_all_digits {fuel n : Nat} (h : n < fuel) :
    ∀ c ∈ natDigitsAux fuel n, c.isDigit = true := by
  induction fuel generalizing n with
  | zero => omega
  | succ f ih =>
    intro c hc
    rw [show natDigitsAux (f + 1) n = (if n < 10 then [digitChar10 n]
      else natDigitsAux f (n / 10) ++ [digitChar10 (n % 10)]) from rfl] at hc
    by_cases hn : n < 10
    · rw [if_pos hn] at hc
      simp at hc
      rw [hc]
      exact digitChar10_isDigit n
    · rw [if_neg hn] at hc
      rw [List.mem_append] at hc
      rcases hc with hc | hc
      · exact ih (by omega) c hc
      · simp at hc
        rw [hc]
        exact digitChar10_isDigit _

theorem natDigitsAux_foldl {fuel n : Nat} (h : n < fuel) (acc : Nat) :
    (natDigitsAux fuel n).foldl digStep acc =
      acc * 10 ^ (natDigitsAux fuel n).length + n := by
  induction fuel generalizing n acc with
  | zero => omega
  | succ f ih =>
    rw [show natDigitsAux (f + 1) n = (if n < 10 then [digitChar10 n]
      else natDigitsAux f (n / 10) ++ [digitChar10 (n % 10)]) from rfl]
    by_cases hn : n < 10
    · rw [if_pos hn]
      show digStep acc (digitChar10 n) = acc * 10 ^ 1 + n
      unfold digStep
      rw [digitChar10_toNat hn]
      omega
    · rw [if_neg hn]
      rw [List.foldl_append, List.length_append]
      have hdiv : n / 10 < f := by omega
      rw [ih hdiv]
      show digStep (acc * 10 ^ (natDigitsAux f (n / 10)).length + n / 10) (digitChar10 (n % 10)) = _
      unfold digStep
      rw [digitChar10_toNat (Nat.mod_lt n (by omega))]
      rw [List.length_singleton, pow_succ]
      have hmod : 48 + n % 10 - 48 = n % 10 := by omega
      have := Nat.div_add_mod n 10
      ring_nf
      omega

theorem natDigits_all_digits (n : Nat) : ∀ c ∈ natDigits n, c.isDigit = true :=
  natDigitsAux_all_digits (Nat.lt_succ_self n)

theorem natDigits_ne_nil (n : Nat) : natDigits n ≠ [] :=
  natDigitsAux_ne_nil (Nat.lt_succ_self n)

theorem natDigits_foldl (n : Nat) :
    (natDigits n).foldl digStep 0 = n := by
  have h := natDigitsAux_foldl (Nat.lt_succ_self n) 0
  rw [Nat.zero_mul] at h
  unfold natDigits
  simpa using h

theorem parseDigitsRest_digits {ds : List Char}
    (h : ∀ c ∈ ds, c.isDigit = true) (acc : Nat) :
    parseDigitsRest ds acc = some (ds.foldl digStep acc) := by
  induction ds generalizing acc with
  | nil => rfl
  | cons c cs ih =>
    have hc : c.isDigit = true := h c (List.mem_cons_self c cs)
    rw [parseDigitsRest.eq_def]
    simp only [hc, if_true]
    rw [ih (fun d hd => h d (List.mem_cons_of_mem c hd))]
    rfl

theorem digit_not_ws {c : Char} (h : c.isDigit = true) : isPyWs c = false := by
  rw [isDigit_toNat] at h
  rw [← Bool.not_eq_true, isPyWs_toNat]
  omega

theorem stripL_all_digits {ds : List Char}
    (h : ∀ c ∈ ds, c.isDigit = true) : stripL ds = ds := by
  apply stripL_eq_self
  · intro c hc
    exact digit_not_ws (h c (List.mem_of_mem_head? hc))
  · intro c hc
    have : c ∈ ds := List.mem_of_mem_getLast? hc
    exact digit_not_ws (h c this)

theorem pyIntOfString_digits {ds : List Char}
    (hd : ∀ c ∈ ds, c.isDigit = true) (hne : ds ≠ []) :
    pyIntOfString (String.mk ds) = some ((ds.foldl digStep 0 : Nat) : Int) := by
  unfold pyIntOfString
  rw [toList_mk, stripL_all_digits hd]
  match ds, hne with
  | d :: rest, _ =>
    have hdd : d.isDigit = true := hd d (List.mem_cons_self d rest)
    have hdn : 48 ≤ d.toNat ∧ d.toNat ≤ 57 := (isDigit_toNat d).mp hdd
    have hminus : d ≠ '-' := by
      intro hh
      rw [hh] at hdn
      exact absurd hdn (by decide)
    have hplus : d ≠ '+' := by
      intro hh
      rw [hh] at hdn
      exact absurd hdn (by decide)
    have harm : parseSigned (d :: rest) =
        (parseUnsigned (d :: rest)).map (fun n => (n : Int)) := by
      rw [parseSigned.eq_def]
      split
      · next heq => exact absurd (List.cons.inj heq).1 hminus
      · next heq => exact absurd (List.cons.inj heq).1 hplus
      · rfl
    rw [harm]
    show ((if d.isDigit then parseDigitsRest rest (d.toNat - 48) else none).map
      (fun n => (n : Int))) = _
    rw [if_pos hdd]
    rw [parseDigitsRest_digits (fun c hc => hd c (List.mem_cons_of_mem d hc))]
    show some (((rest.foldl digStep (d.toNat - 48) : Nat) : Int)) = _
    congr 2
    show rest.foldl digStep (d.toNat - 48) = (d :: rest).foldl digStep 0
    rw [List.foldl_cons]
    congr 1
    unfold digStep
    omega

theorem intStr_coe (n : Nat) : intStr (n : Int) = String.mk (natDigits n) := rfl

theorem natDigits_ne_P {n : Nat} : ∀ c ∈ natDigits n, c ≠ 'P' := by
  intro c hc hcp
  have hd := natDigits_all_digits n c hc
  rw [hcp] at hd
  exact absurd hd (by decide)

theorem extract_roundtrip (n : Nat) :
    extract_badge_number (some (palTag ++ intStr (n : Int))) = .ok (some (n : Int)) := by
  have hpal : palTag.toList = 'P' :: "ALITANA_YATRA_".toList := rfl
  have hds : (intStr (n : Int)).toList = natDigits n := by
    rw [intStr_coe]
    rfl
  have htl : (palTag ++ intStr (n : Int)).toList =
      ('P' :: "ALITANA_YATRA_".toList) ++ natDigits n := by
    rw [toList_append, hpal, hds]
  have hne : (palTag ++ intStr (n : Int)) ≠ "" := by
    intro h
    have := congrArg String.toList h
    rw [htl] at this
    simp at this
  have hcontains : containsSub (palTag ++ intStr (n : Int)) palTag = true := by
    unfold containsSub
    rw [htl, hpal]
    exact hasSub_front
  have hcond : ((palTag ++ intStr (n : Int)) ≠ "" &&
      containsSub (palTag ++ intStr (n : Int)) palTag) = true := by
    rw [hcontains]
    simp [hne]
  have hstep : extract_badge_number (some (palTag ++ intStr (n : Int))) =
      if ((palTag ++ intStr (n : Int)) ≠ "" &&
          containsSub (palTag ++ intStr (n : Int)) palTag) then
        match pyIntOfString (String.mk
            (replL palTag.toList [] (palTag ++ intStr (n : Int)).toList)) with
        | some k => Except.ok (some k)
        | none => Except.error "ValueError: invalid literal for int"
      else Except.ok none := rfl
  rw [hstep, if_pos hcond]
  have hrepl : replL palTag.toList [] (palTag ++ intStr (n : Int)).toList =
      natDigits n := by
    rw [htl, hpal]
    exact replL_token natDigits_ne_P
  rw [hrepl]
  rw [pyIntOfString_digits (natDigits_all_digits n) (natDigits_ne_nil n)]
  rw [natDigits_foldl]

theorem extract_no_tag {s : String} (h : containsSub s palTag = false) :
    extract_badge_number (some s) = .ok none := by
  have hstep : extract_badge_number (some s) =
      if (s ≠ "" && containsSub s palTag) then
        match pyIntOfString (String.mk (replL palTag.toList [] s.toList)) with
        | some k => Except.ok (some k)
        | none => Except.error "ValueError: invalid literal for int"
      else Except.ok none := rfl
  rw [hstep, if_neg]
  intro hc
  rw [h, Bool.and_false] at hc
  exact Bool.false_ne_true hc

/-! ### Badge-index lemmas -/

theorem by_badge_cons_ok {p : Participant} {ps : List Participant}
    {m : List (Int × Participant)} (h : by_badge (p :: ps) = .ok m) :
    ∃ ob rest, extract_badge_number p.qrToken = .ok ob ∧ by_badge ps = .ok rest ∧
      m = (match ob with
        | some b => if b = 0 then rest else rest ++ [(b, p)]
        | none => rest) := by
  cases hext : extract_badge_number p.qrToken with
  | error e =>
    rw [show by_badge (p :: ps) = (extract_badge_number p.qrToken).bind
      (fun ob => (by_badge ps).bind (fun rest => match ob with
        | some b => if b = 0 then pure rest else pure (rest ++ [(b, p)])
        | none => pure rest)) from rfl, hext] at h
    exact absurd h (by simp [Except.bind])
  | ok ob =>
    cases hrest : by_badge ps with
    | error e =>
      rw [show by_badge (p :: ps) = (extract_badge_number p.qrToken).bind
        (fun ob => (by_badge ps).bind (fun rest => match ob with
          | some b => if b = 0 then pure rest else pure (rest ++ [(b, p)])
          | none => pure rest)) from rfl, hext, hrest] at h
      exact absurd h (by simp [Except.bind])
    | ok rest =>
      refine ⟨ob, rest, rfl, rfl, ?_⟩
      rw [show by_badge (p :: ps) = (extract_badge_number p.qrToken).bind
        (fun ob => (by_badge ps).bind (fun rest => match ob with
          | some b => if b = 0 then pure rest else pure (rest ++ [(b, p)])
          | none => pure rest)) from rfl, hext, hrest] at h
      cases ob with
      | none => simpa [Except.bind, pure, Except.pure] using h.symm
      | some b =>
        by_cases hb : b = 0
        · subst hb
          simpa [Except.bind, pure, Except.pure] using h.symm
        · simp only [Except.bind, hb, if_neg] at h
          simpa [pure, Except.pure, hb] using h.symm

theorem by_badge_lookup {ps : List Participant} {m : List (Int × Participant)}
    (h : by_badge ps = .ok m) {b : Int} (hb : b ≠ 0) :
    idxLookup m b = lastDeriving ps b := by
  induction ps generalizing m with
  | nil =>
    have hm : m = [] := by
      have : (Except.ok [] : Except String (List (Int × Participant))) = .ok m := h
      simpa using this
    subst hm
    rfl
  | cons p ps ih =>
    obtain ⟨ob, rest, hext, hrest, hm⟩ := by_badge_cons_ok h
    have hih := ih hrest
    unfold lastDeriving
    rw [List.reverse_cons, List.find?_append]
    have hlast : lastDeriving ps b = ps.reverse.find?
        (fun q => extract_badge_number q.qrToken == .ok (some b)) := rfl
    cases ob with
    | none =>
      have hpred : (extract_badge_number p.qrToken == (Except.ok (some b) :
          Except String (Option Int))) = false := by
        rw [hext]
        simp
      subst hm
      rw [hih, hlast]
      rw [List.find?_singleton, hpred]
      cases ps.reverse.find? (fun q => extract_badge_number q.qrToken == .ok (some b)) <;> rfl
    | some b' =>
      by_cases hb0 : b' = 0
      · subst hb0
        simp only [if_pos rfl] at hm
        subst hm
        have hpred : (extract_badge_number p.qrToken == (Except.ok (some b) :
            Except String (Option Int))) = false := by
          rw [hext]
          simp
          intro hEq
          exact absurd hEq.symm hb
        rw [hih, hlast]
        rw [List.find?_singleton, hpred]
        cases ps.reverse.find? (fun q => extract_badge_number q.qrToken == .ok (some b)) <;> rfl
      · simp only [if_neg hb0] at hm
        subst hm
        unfold idxLookup
        rw [List.find?_append]
        by_cases hbb : b' = b
        · subst hbb
          have hpred : (extract_badge_number p.qrToken == (Except.ok (some b') :
              Except String (Option Int))) = true := by
            rw [hext]
            simp
          have hkv : (List.find? (fun kv => kv.1 = b') [(b', p)]) = some (b', p) := by
            rw [List.find?_singleton]
            simp
          rw [hkv, List.find?_singleton, hpred]
          unfold idxLookup at hih
          rw [hlast] at hih
          cases hfr : List.find? (fun kv => kv.1 = b') rest with
          | none =>
            rw [hfr] at hih
            simp at hih
            rw [← hih]
            rfl
          | some kv =>
            rw [hfr] at hih
            simp at hih
            rw [← hih]
            rfl
        · have hpred : (extract_badge_number p.qrToken == (Except.ok (some b) :
              Except String (Option Int))) = false := by
            rw [hext]
            simp
            intro hEq
            exact absurd hEq hbb
          have hkv : (List.find? (fun kv => kv.1 = b) [(b', p)]) = none := by
            rw [List.find?_singleton]
            simp [hbb]
          rw [hkv, List.find?_singleton, hpred]
          unfold idxLookup at hih
          rw [hlast] at hih
          cases hfr : List.find? (fun kv => kv.1 = b) rest with
          | none =>
            rw [hfr] at hih
            simp at hih
            rw [← hih]
            rfl
          | some kv =>
            rw [hfr] at hih
            simp at hih
            rw [← hih]
            rfl

theorem extract_zero_token {r : Participant}
    (hr : r.qrToken = some "PALITANA_YATRA_0") :
    extract_badge_number r.qrToken = .ok (some 0) := by
  rw [hr]
  decide

theorem by_badge_cons_zero {r : Participant}
    (hr : r.qrToken = some "PALITANA_YATRA_0") (ps : List Participant) :
    by_badge (r :: ps) = by_badge ps := by
  have hstep : by_badge (r :: ps) = (extract_badge_number r.qrToken).bind
      (fun ob => (by_badge ps).bind (fun rest => match ob with
        | some b => if b = 0 then pure rest else pure (rest ++ [(b, r)])
        | none => pure rest)) := rfl
  rw [hstep, extract_zero_token hr]
  cases hps : by_badge ps with
  | error e => rfl
  | ok rest => rfl

theorem by_badge_skip_zero {r : Participant}
    (hr : r.qrToken = some "PALITANA_YATRA_0") (ps1 ps2 : List Participant) :
    by_badge (ps1 ++ r :: ps2) = by_badge (ps1 ++ ps2) := by
  induction ps1 with
  | nil => exact by_badge_cons_zero hr ps2
  | cons p ps ih =>
    have h1 : by_badge (p :: (ps ++ r :: ps2)) = (extract_badge_number p.qrToken).bind
        (fun ob => (by_badge (ps ++ r :: ps2)).bind (fun rest => match ob with
          | some b => if b = 0 then pure rest else pure (rest ++ [(b, p)])
          | none => pure rest)) := rfl
    have h2 : by_badge (p :: (ps ++ ps2)) = (extract_badge_number p.qrToken).bind
        (fun ob => (by_badge (ps ++ ps2)).bind (fun rest => match ob with
          | some b => if b = 0 then pure rest else pure (rest ++ [(b, p)])
          | none => pure rest)) := rfl
    show by_badge (p :: (ps ++ r :: ps2)) = by_badge (p :: (ps ++ ps2))
    rw [h1, h2, ih]

theorem mainAll_eq_of_by_badge {db : List Participant}
    {m : List (Int × Participant)} (h : by_badge db = .ok m)
    (fs : Option (List String)) :
    mainAll db fs true = .ok ⟨db.length, missing_badges m, incomplete_data m,
      invalid_data m, all_passed (missing_badges m) (verify_qr_code_files fs).1
        (incomplete_data m) (invalid_data m)⟩ := by
  have hstep : mainAll db fs true = (by_badge db).bind (fun m =>
      .ok ⟨db.length, missing_badges m, incomplete_data m, invalid_data m,
        all_passed (missing_badges m) (verify_qr_code_files fs).1
          (incomplete_data m) (invalid_data m)⟩) := rfl
  rw [hstep, h]
  rfl

theorem mainAll_error_of_write_fail {db : List Participant}
    {m : List (Int × Participant)} (h : by_badge db = .ok m)
    (fs : Option (List String)) :
    mainAll db fs false = .error "report write failed" := by
  have hstep : mainAll db fs false = (by_badge db).bind (fun m =>
      (.error "report write failed" : Except String Report)) := rfl
  rw [hstep, h]
  rfl

theorem mainAll_findings_skip_zero {r : Participant}
    (hr : r.qrToken = some "PALITANA_YATRA_0") (ps1 ps2 : List Participant)
    (fs : Option (List String)) (w : Bool) :
    (mainAll (ps1 ++ r :: ps2) fs w).map reportFindings =
      (mainAll (ps1 ++ ps2) fs w).map reportFindings := by
  have hbb := by_badge_skip_zero hr ps1 ps2
  have h1 : ∀ (db : List Participant), mainAll db fs w = (by_badge db).bind (fun m =>
      if w then .ok ⟨db.length, missing_badges m, incomplete_data m, invalid_data m,
        all_passed (missing_badges m) (verify_qr_code_files fs).1
          (incomplete_data m) (invalid_data m)⟩
      else .error "report write failed") := by
    intro db
    cases w <;> rfl
  rw [h1, h1, hbb]
  cases hm : by_badge (ps1 ++ ps2) with
  | error e => rfl
  | ok m => cases w <;> rfl

theorem compare_data_skip_zero {r : Participant}
    (hr : r.qrToken = some "PALITANA_YATRA_0") (rows : List Row)
    (ps1 ps2 : List Participant) :
    compare_data rows (ps1 ++ r :: ps2) = compare_data rows (ps1 ++ ps2) := by
  unfold compare_data
  rw [by_badge_skip_zero hr ps1 ps2]

/-! ### Aggregation lemmas -/

theorem all_passed_iff (mb : List Int) (fb : Option (List Int))
    (inc inv : List Finding) :
    all_passed mb fb inc inv = true ↔
      (mb = [] ∧ inc = [] ∧ inv = [] ∧
        ∀ l, fb = some l → l ≠ [] → pyMissingFiles l = []) := by
  unfold all_passed
  cases fb with
  | none =>
    simp [List.isEmpty_iff]
    tauto
  | some l =>
    by_cases hl : l = []
    · subst hl
      simp [List.isEmpty_iff]
      tauto
    · simp [List.isEmpty_iff, hl]
      tauto

theorem mainFinal_summary {rows : List Row} {db : List Participant}
    {ds : List Discrepancy} {k : Nat}
    (h : compare_data rows db = .ok (ds, k)) :
    (mainFinal rows db true).1 =
        summaryLines ds k ++ ["Report saved to verification_report.json"] ∧
      (mainFinal rows db false).1 = summaryLines ds k ∧
      (mainFinal rows db false).2 = .error "report write failed" := by
  unfold mainFinal
  rw [h]
  exact ⟨rfl, rfl, rfl⟩

/-! ### Field-comparison tolerance lemmas -/

theorem ageIssue_roster_absent {row : Row} {p : Participant}
    (h : row.age = none) : ageIssue row p = [] := by
  unfold ageIssue
  rw [h]
  rfl

theorem ageIssue_db_absent {row : Row} {p : Participant} {ea : Int}
    (h : rowAge row.age = some ea) (hdb : p.age = none) :
    ageIssue row p ≠ [] := by
  unfold ageIssue
  rw [h, hdb]
  simp

theorem bloodIssue_roster_absent {row : Row} {p : Participant}
    (h : cellStr row.blood = "") : bloodIssue row p = [] := by
  unfold bloodIssue
  rw [h]
  simp

theorem emergIssue_roster_absent {row : Row} {p : Participant}
    (h : normalize_phone row.emergency = "") : emergIssue row p = [] := by
  unfold emergIssue
  rw [h]
  simp

theorem photoIssue_roster_absent {row : Row} {p : Participant}
    (h : cellStr row.photo = "") : photoIssue row p = [] := by
  unfold photoIssue
  rw [h]
  simp

theorem mk_ne_empty {l : List Char} (h : l ≠ []) : String.mk l ≠ "" := by
  intro hh
  apply h
  have h2 : (String.mk l).toList = ("" : String).toList := by rw [hh]
  simpa using h2

theorem cellStr_stripped {x : Option PyScalar} (h : cellStr x ≠ "") :
    ∃ v, x = some v ∧ cellStr x = String.mk (stripL (strOfScalar v).toList) ∧
      stripL (strOfScalar v).toList ≠ [] := by
  cases x with
  | none => exact absurd rfl h
  | some v =>
    refine ⟨v, rfl, rfl, ?_⟩
    intro hnil
    apply h
    show pyStrip (strOfScalar v) = ""
    unfold pyStrip
    rw [hnil]

theorem normalize_blood_group_ne_empty {x : Option PyScalar}
    (h : cellStr x ≠ "") :
    normalize_blood_group (some (.s (cellStr x))) ≠ "" := by
  obtain ⟨v, hx, hc, hne⟩ := cellStr_stripped h
  rw [hc]
  show String.mk (replL [' '] []
    (upperL (stripL (String.mk (stripL (strOfScalar v).toList)).toList))) ≠ ""
  rw [toList_mk, stripL_stripL, replL_space]
  apply mk_ne_empty
  cases hu : stripL (strOfScalar v).toList with
  | nil => exact absurd hu hne
  | cons c rest =>
    have hcw : isPyWs c = false := by
      apply headq_stripL_not (strOfScalar v).toList
      rw [hu]
      rfl
    show (upperL (c :: rest)).filter notSpace ≠ []
    unfold upperL
    rw [List.map_cons, List.filter_cons]
    rw [if_pos ?hns]
    case hns =>
      apply notSpace_of_not_ws
      rw [isPyWs_toUpper]
      exact hcw
    simp

theorem normalize_name_ne_empty {x : Option PyScalar}
    (h : cellStr x ≠ "") :
    normalize_name (some (.s (cellStr x))) ≠ "" := by
  obtain ⟨v, hx, hc, hne⟩ := cellStr_stripped h
  rw [hc]
  show String.mk
    (lowerL (stripL (String.mk (stripL (strOfScalar v).toList)).toList)) ≠ ""
  rw [toList_mk, stripL_stripL]
  apply mk_ne_empty
  unfold lowerL
  intro hh
  exact hne (List.map_eq_nil_iff.mp hh)

theorem bloodIssue_db_absent {row : Row} {p : Participant}
    (h : cellStr row.blood ≠ "") (hdb : p.bloodGroup = none) :
    bloodIssue row p ≠ [] := by
  unfold bloodIssue
  rw [hdb]
  have hdbn : dbFieldStr none = "" := rfl
  rw [hdbn]
  have hbg : normalize_blood_group (some (.s "")) = "" := rfl
  rw [hbg]
  rw [if_pos (normalize_blood_group_ne_empty h), if_pos h]
  simp

theorem emergIssue_db_absent {row : Row} {p : Participant}
    (h : normalize_phone row.emergency ≠ "") (hdb : p.emergencyContact = none) :
    emergIssue row p ≠ [] := by
  unfold emergIssue
  rw [hdb]
  have hdbn : normalize_phone ((none : Option String).map PyScalar.s) = "" := rfl
  rw [hdbn]
  rw [if_pos h, if_pos h]
  simp

theorem photoIssue_db_absent {row : Row} {p : Participant}
    (h : cellStr row.photo ≠ "") (hdb : p.photoUri = none) :
    photoIssue row p ≠ [] := by
  unfold photoIssue
  rw [hdb]
  have hdbn : dbFieldStr none = "" := rfl
  rw [hdbn]
  rw [if_pos ?hcond]
  case hcond => simp [h]
  simp

theorem nameIssue_db_absent {row : Row} {p : Participant}
    (h : cellStr row.name ≠ "") (hdb : p.name = none) :
    nameIssue row p ≠ [] := by
  unfold nameIssue
  rw [hdb]
  have hdbn : dbFieldStr none = "" := rfl
  rw [hdbn]
  have hnm : normalize_name (some (.s "")) = "" := rfl
  rw [hnm]
  rw [if_pos (normalize_name_ne_empty h)]
  simp

/-! ### Validity-check lemmas -/

theorem uuid_flagged {b : Int} {p : Participant} (h : uuidBad p.uuid = true) :
    ("invalid UUID: " ++ showOpt p.uuid) ∈ issuesOf b p := by
  unfold issuesOf uuidIssues
  rw [if_pos h]
  exact List.mem_append_left _
    (List.mem_append_left _ (List.mem_singleton.mpr rfl))

theorem uuidIssues_empty {p : Participant} (h : uuidBad p.uuid = false) :
    uuidIssues p = [] := by
  unfold uuidIssues
  rw [h]
  rfl

theorem ageIssues_nonnum {p : Participant} {v : PyScalar}
    (hv : p.age = some v) (hp : pyIntOfVal v = none) :
    ageIssues p = ["non-numeric age: " ++ strOfScalar v] := by
  unfold ageIssues
  rw [hv]
  show (match pyIntOfVal v with
    | some a => if a < 1 || a > 120 then ["invalid age: " ++ intStr a] else []
    | none => ["non-numeric age: " ++ strOfScalar v]) = _
  rw [hp]

theorem ageIssues_out_of_range {p : Participant} {v : PyScalar} {a : Int}
    (hv : p.age = some v) (hp : pyIntOfVal v = some a) (h : a < 1 ∨ a > 120) :
    ageIssues p = ["invalid age: " ++ intStr a] := by
  unfold ageIssues
  rw [hv]
  show (match pyIntOfVal v with
    | some a => if a < 1 || a > 120 then ["invalid age: " ++ intStr a] else []
    | none => ["non-numeric age: " ++ strOfScalar v]) = _
  rw [hp]
  show (if a < 1 || a > 120 then _ else _) = _
  rw [if_pos (by simpa using h)]

theorem ageIssues_in_range {p : Participant} {v : PyScalar} {a : Int}
    (hv : p.age = some v) (hp : pyIntOfVal v = some a)
    (h1 : 1 ≤ a) (h2 : a ≤ 120) :
    ageIssues p = [] := by
  unfold ageIssues
  rw [hv]
  show (match pyIntOfVal v with
    | some a => if a < 1 || a > 120 then ["invalid age: " ++ intStr a] else []
    | none => ["non-numeric age: " ++ strOfScalar v]) = _
  rw [hp]
  show (if a < 1 || a > 120 then _ else _) = _
  rw [if_neg ?hc]
  case hc =>
    simp
    omega

theorem age_msg_flagged {b : Int} {p : Participant} {msg : String}
    (h : msg ∈ ageIssues p) : msg ∈ issuesOf b p := by
  unfold issuesOf
  exact List.mem_append_right _ h

theorem cohort_mem {b : Int} : b ∈ cohort ↔ 1 ≤ b ∧ b ≤ 417 := by
  unfold cohort
  rw [List.mem_map]
  constructor
  · rintro ⟨k, hk, rfl⟩
    rw [List.mem_range] at hk
    rw [Int.ofNat_eq_coe]
    omega
  · rintro ⟨h1, h2⟩
    refine ⟨(b - 1).toNat, ?_, ?_⟩
    · rw [List.mem_range]
      omega
    · rw [Int.ofNat_eq_coe]
      omega

theorem invalid_data_mem {m : List (Int × Participant)} {b : Int} {p : Participant}
    (hb : b ∈ cohort) (hl : idxLookup m b = some p)
    (hne : issuesOf b p ≠ []) :
    (⟨b, p.name, issuesOf b p⟩ : Finding) ∈ invalid_data m := by
  unfold invalid_data
  apply List.mem_filterMap.mpr
  refine ⟨b, hb, ?_⟩
  rw [hl]
  show (if (issuesOf b p).isEmpty then none
    else some (⟨b, p.name, issuesOf b p⟩ : Finding)) =
      some ⟨b, p.name, issuesOf b p⟩
  rw [if_neg (fun hh => hne (List.isEmpty_iff.mp hh))]

/-! ### Ordering lemmas -/

theorem cohort_sorted : List.Pairwise (· < ·) cohort := by
  unfold cohort
  rw [List.pairwise_map]
  refine List.Pairwise.imp ?_ (List.sorted_lt_range 417)
  intro a b hab
  show Int.ofNat (a + 1) < Int.ofNat (b + 1)
  rw [Int.ofNat_eq_coe, Int.ofNat_eq_coe]
  omega

theorem missing_badges_sorted (m : List (Int × Participant)) :
    List.Pairwise (· < ·) (missing_badges m) :=
  List.Pairwise.filter _ cohort_sorted

theorem pyMissingFiles_sorted (fb : List Int) :
    List.Pairwise (· < ·) (pyMissingFiles fb) :=
  List.Pairwise.filter _ cohort_sorted

theorem findings_badges_sorted {g : Int → Option Finding}
    (hg : ∀ b f, g b = some f → f.badge = b) :
    List.Pairwise (· < ·) ((cohort.filterMap g).map Finding.badge) := by
  rw [List.pairwise_map]
  refine List.Pairwise.filterMap g ?_ cohort_sorted
  intro a a' hlt f hf f' hf'
  have h1 : f.badge = a := hg a f (Option.mem_def.mp hf)
  have h2 : f'.badge = a' := hg a' f' (Option.mem_def.mp hf')
  rw [h1, h2]
  exact hlt

theorem invalid_data_badges_sorted (m : List (Int × Participant)) :
    List.Pairwise (· < ·) ((invalid_data m).map Finding.badge) := by
  unfold invalid_data
  apply findings_badges_sorted
  intro b f hgf
  revert hgf
  cases hl2 : idxLookup m b with
  | none =>
    intro hgf
    exact absurd hgf (by simp)
  | some p =>
    intro hgf
    have hgf2 : (if (issuesOf b p).isEmpty then none else
        some (⟨b, p.name, issuesOf b p⟩ : Finding)) = some f := hgf
    split at hgf2
    · exact absurd hgf2 (by simp)
    · have hf := Option.some.inj hgf2
      rw [← hf]

theorem incomplete_data_badges_sorted (m : List (Int × Participant)) :
    List.Pairwise (· < ·) ((incomplete_data m).map Finding.badge) := by
  unfold incomplete_data
  apply findings_badges_sorted
  intro b f hgf
  revert hgf
  cases hl2 : idxLookup m b with
  | none =>
    intro hgf
    exact absurd hgf (by simp)
  | some p =>
    intro hgf
    have hgf2 : (if (missingCritical p).isEmpty then none else
        some (⟨b, p.name, missingCritical p⟩ : Finding)) = some f := hgf
    split at hgf2
    · exact absurd hgf2 (by simp)
    · have hf := Option.some.inj hgf2
      rw [← hf]

theorem verify_files_sorted (files : List String) :
    ∀ l, (verify_qr_code_files (some files)).1 = some l →
      List.Sorted (· ≤ ·) l := by
  intro l hl
  have h1 : (verify_qr_code_files (some files)).1 =
      some (List.insertionSort (fun a b => a ≤ b) (files.filterMap fileBadge)) := rfl
  rw [h1] at hl
  have h2 := Option.some.inj hl
  rw [← h2]
  exact List.sorted_insertionSort _ _

/-! ### The fully valid cohort run -/

theorem append_palTag_ne_empty (s : String) : palTag ++ s ≠ "" := by
  intro h
  have h2 := congrArg String.toList h
  rw [toList_append] at h2
  rw [show ("" : String).toList = [] from rfl] at h2
  exact absurd (List.append_eq_nil.mp h2).1 (by decide)

theorem extract_goodP (k : Nat) :
    extract_badge_number (goodP (Int.ofNat (k + 1))).qrToken =
      .ok (some (Int.ofNat (k + 1))) := by
  show extract_badge_number (some (palTag ++ intStr (Int.ofNat (k + 1)))) = _
  rw [Int.ofNat_eq_coe]
  exact extract_roundtrip (k + 1)

theorem by_badge_goodList (ks : List Nat) :
    by_badge (ks.map (fun k => goodP (Int.ofNat (k + 1)))) =
      .ok ((ks.map
        (fun k => (Int.ofNat (k + 1), goodP (Int.ofNat (k + 1))))).reverse) := by
  induction ks with
  | nil => rfl
  | cons k ks ih =>
    rw [List.map_cons]
    have hstep : by_badge (goodP (Int.ofNat (k + 1)) ::
        ks.map (fun k => goodP (Int.ofNat (k + 1)))) =
        (extract_badge_number (goodP (Int.ofNat (k + 1))).qrToken).bind
          (fun ob => (by_badge (ks.map (fun k => goodP (Int.ofNat (k + 1))))).bind
            (fun rest => match ob with
              | some b => if b = 0 then pure rest
                  else pure (rest ++ [(b, goodP (Int.ofNat (k + 1)))])
              | none => pure rest)) := rfl
    rw [hstep, extract_goodP k, ih]
    simp only [Except.bind]
    rw [if_neg ?hz]
    case hz =>
      rw [Int.ofNat_eq_coe]
      omega
    show Except.ok _ = Except.ok _
    rw [List.map_cons, List.reverse_cons]

theorem by_badge_goodDb : by_badge goodDb = .ok goodIdx :=
  by_badge_goodList (List.range 417)

theorem idxLookup_goodVal {m : List (Int × Participant)}
    (hval : ∀ kv ∈ m, kv.2 = goodP kv.1) {b : Int}
    (hkey : b ∈ m.map Prod.fst) :
    idxLookup m b = some (goodP b) := by
  induction m with
  | nil => simp at hkey
  | cons kv m ih =>
    by_cases hk : kv.1 = b
    · unfold idxLookup
      rw [List.find?_cons_of_pos _ (by simp [hk])]
      show some kv.2 = some (goodP b)
      rw [hval kv (List.mem_cons_self kv m), hk]
    · unfold idxLookup
      rw [List.find?_cons_of_neg _ (by simp [hk])]
      have hkey2 : b ∈ m.map Prod.fst := by
        rcases List.mem_map.mp hkey with ⟨kv2, hkv2, hfst⟩
        rcases List.mem_cons.mp hkv2 with h1 | h2
        · exact absurd (h1 ▸ hfst) hk
        · exact List.mem_map.mpr ⟨kv2, h2, hfst⟩
      exact ih (fun kv2 h2 => hval kv2 (List.mem_cons_of_mem kv h2)) hkey2

theorem idxLookup_goodIdx {b : Int} (h1 : 1 ≤ b) (h2 : b ≤ 417) :
    idxLookup goodIdx b = some (goodP b) := by
  apply idxLookup_goodVal
  · intro kv hkv
    unfold goodIdx at hkv
    rw [List.mem_reverse] at hkv
    rcases List.mem_map.mp hkv with ⟨k, _, rfl⟩
    rfl
  · unfold goodIdx
    rw [List.map_reverse, List.mem_reverse, List.map_map]
    apply List.mem_map.mpr
    refine ⟨(b - 1).toNat, ?_, ?_⟩
    · rw [List.mem_range]
      omega
    · show Int.ofNat ((b - 1).toNat + 1) = b
      rw [Int.ofNat_eq_coe]
      omega

theorem missingCritical_goodP (b : Int) : missingCritical (goodP b) = [] := by
  unfold missingCritical
  rw [show (goodP b).name = some "A" from rfl,
    show (goodP b).uuid = some goodUuid from rfl,
    show (goodP b).qrToken = some (palTag ++ intStr b) from rfl]
  rw [if_neg ?hname, if_neg ?huuid, if_neg ?htok]
  case hname => decide
  case huuid => decide
  case htok =>
    show ¬ pyFalsy (some (palTag ++ intStr b)) = true
    unfold pyFalsy
    simp [append_palTag_ne_empty (intStr b)]
  rfl

theorem issuesOf_goodP (b : Int) : issuesOf b (goodP b) = [] := by
  unfold issuesOf
  have hu : uuidIssues (goodP b) = [] := by
    apply uuidIssues_empty
    rw [show (goodP b).uuid = some goodUuid from rfl]
    decide
  have ht : tokenIssues b (goodP b) = [] := by
    unfold tokenIssues goodP
    simp
  have ha : ageIssues (goodP b) = [] := rfl
  rw [hu, ht, ha]
  rfl

theorem missing_badges_goodIdx : missing_badges goodIdx = [] := by
  unfold missing_badges
  rw [List.filter_eq_nil_iff]
  intro b hb
  obtain ⟨h1, h2⟩ := cohort_mem.mp hb
  rw [idxLookup_goodIdx h1 h2]
  simp

theorem incomplete_data_goodIdx : incomplete_data goodIdx = [] := by
  unfold incomplete_data
  rw [List.filterMap_eq_nil_iff]
  intro b hb
  obtain ⟨h1, h2⟩ := cohort_mem.mp hb
  rw [idxLookup_goodIdx h1 h2]
  show (if (missingCritical (goodP b)).isEmpty then none
    else some (⟨b, (goodP b).name, missingCritical (goodP b)⟩ : Finding)) = none
  rw [missingCritical_goodP]
  rfl

theorem invalid_data_goodIdx : invalid_data goodIdx = [] := by
  unfold invalid_data
  rw [List.filterMap_eq_nil_iff]
  intro b hb
  obtain ⟨h1, h2⟩ := cohort_mem.mp hb
  rw [idxLookup_goodIdx h1 h2]
  show (if (issuesOf b (goodP b)).isEmpty then none
    else some (⟨b, (goodP b).name, issuesOf b (goodP b)⟩ : Finding)) = none
  rw [issuesOf_goodP]
  rfl


/-! ### Claims -/

/-- Claim C1, amended: `extract_badge_number` returns the embedded integer
badge number for well-formed tokens (`PALITANA_YATRA_<n>` yields `n`) and
the absent value for null, empty, and non-matching tokens; but it is not
total — on a token that contains the marker whose remaining characters do
not form a valid integer literal it raises `ValueError` (see the
counterexample) instead of returning the absent value. -/
theorem claim_C1 (n : Nat) (s : String) (hs : containsSub s palTag = false) :
    extract_badge_number none = .ok none ∧
    extract_badge_number (some "") = .ok none ∧
    extract_badge_number (some s) = .ok none ∧
    extract_badge_number (some (palTag ++ intStr (n : Int))) = .ok (some (n : Int)) :=
  ⟨rfl, by decide, extract_no_tag hs, extract_roundtrip n⟩

/-- Claim C1 witness: the amended statement evaluated at `n = 42` and the
non-matching token `"hello"`. -/
theorem claim_C1_witness :
    containsSub "hello" palTag = false ∧
      (extract_badge_number none = .ok none ∧
        extract_badge_number (some "") = .ok none ∧
        extract_badge_number (some "hello") = .ok none ∧
        extract_badge_number (some (palTag ++ intStr ((42 : Nat) : Int))) =
          .ok (some ((42 : Nat) : Int))) :=
  ⟨by decide, claim_C1 42 "hello" (by decide)⟩

/-- Claim C1 counterexample: on `"PALITANA_YATRA_X"` — which contains the
marker but whose remainder is not an integer — the function raises
`ValueError` (modelled as `.error`), so it is not total and does not
return the absent value as the claim states. -/
theorem claim_C1_counterexample :
    extract_badge_number (some "PALITANA_YATRA_X") =
      .error "ValueError: invalid literal for int" := by decide

/-- Claim C2, amended: `all_passed` is true iff the missing-badge,
incomplete and invalid categories are empty and — only when the QR file
listing is truthy (a non-empty list) — no expected file is missing.  When
the directory is unreadable (`none`) or the listing is empty, the file
check does not affect `all_passed`, contrary to the original claim. -/
theorem claim_C2 (mb : List Int) (fb : Option (List Int))
    (inc inv : List Finding) :
    all_passed mb fb inc inv = true ↔
      (mb = [] ∧ inc = [] ∧ inv = [] ∧
        ∀ l, fb = some l → l ≠ [] → pyMissingFiles l = []) :=
  all_passed_iff mb fb inc inv

/-- Claim C2 witness: a run with empty categories and an unreadable
directory aggregates to `all_passed = true`. -/
theorem claim_C2_witness : all_passed [] none [] [] = true :=
  (claim_C2 [] none [] []).mpr ⟨rfl, rfl, rfl, fun l hl => absurd hl (by simp)⟩

/-- Claim C2 counterexample: with a valid 417-record database and an
unreadable QR directory (every expected QR file absent), the run still
reports `all_passed = true`, so the overall boolean is not false whenever
files are absent. -/
theorem claim_C2_counterexample :
    verify_qr_code_files none = (none, some "QR codes directory not found") ∧
      mainAll goodDb none true = .ok ⟨417, [], [], [], true⟩ := by
  refine ⟨rfl, ?_⟩
  have h := mainAll_eq_of_by_badge by_badge_goodDb none
  rw [missing_badges_goodIdx, incomplete_data_goodIdx, invalid_data_goodIdx] at h
  rw [h]
  have hlen : goodDb.length = 417 := by
    unfold goodDb
    rw [List.length_map, List.length_range]
  rw [hlen]
  rfl

/-- Claim C3, amended: the one-sided tolerance holds for age, blood group,
emergency contact and photo — a field with no roster value produces no
message, and a roster value with no DB value does produce one — but NOT
for name: the name is compared unconditionally, so an absent roster name
against a non-empty DB name is reported (see the counterexample). -/
theorem claim_C3 (row : Row) (p : Participant) :
    (row.age = none → ageIssue row p = []) ∧
    (cellStr row.blood = "" → bloodIssue row p = []) ∧
    (normalize_phone row.emergency = "" → emergIssue row p = []) ∧
    (cellStr row.photo = "" → photoIssue row p = []) ∧
    (∀ ea, rowAge row.age = some ea → p.age = none → ageIssue row p ≠ []) ∧
    (cellStr row.blood ≠ "" → p.bloodGroup = none → bloodIssue row p ≠ []) ∧
    (normalize_phone row.emergency ≠ "" → p.emergencyContact = none →
      emergIssue row p ≠ []) ∧
    (cellStr row.photo ≠ "" → p.photoUri = none → photoIssue row p ≠ []) ∧
    (cellStr row.name ≠ "" → p.name = none → nameIssue row p ≠ []) :=
  ⟨fun h => ageIssue_roster_absent h,
   fun h => bloodIssue_roster_absent h,
   fun h => emergIssue_roster_absent h,
   fun h => photoIssue_roster_absent h,
   fun _ h hdb => ageIssue_db_absent h hdb,
   fun h hdb => bloodIssue_db_absent h hdb,
   fun h hdb => emergIssue_db_absent h hdb,
   fun h hdb => photoIssue_db_absent h hdb,
   fun h hdb => nameIssue_db_absent h hdb⟩

/-- Claim C3 witness: for the all-absent row against the badge-2 record,
the age tolerance of the amended claim yields no age message. -/
theorem claim_C3_witness : blankRow.age = none ∧ ageIssue blankRow pJohn = [] :=
  ⟨rfl, (claim_C3 blankRow pJohn).1 rfl⟩

/-- Claim C3 counterexample: a row whose name cell is absent compared
against a DB record named "John" produces a name-mismatch message, so the
one-sided tolerance does not hold for the name field. -/
theorem claim_C3_counterexample :
    compare_data [blankRow] [pJohn] = .ok ([dJohn], 0) := by decide

/-- Claim C4, amended: the name and blood-group normalizers are idempotent
for every input (missing, string, or numeric scalar), but the phone
normalizer is not (see the counterexample). -/
theorem claim_C4 (x : Option PyScalar) :
    normalize_name (some (.s (normalize_name x))) = normalize_name x ∧
    normalize_blood_group (some (.s (normalize_blood_group x))) =
      normalize_blood_group x :=
  ⟨normalize_name_idem x, normalize_blood_group_idem x⟩

/-- Claim C4 witness: the amended statement evaluated at a concrete mixed
case/whitespace input. -/
theorem claim_C4_witness :
    normalize_name (some (.s (normalize_name (some (.s " a B "))))) =
        normalize_name (some (.s " a B ")) ∧
      normalize_blood_group (some (.s (normalize_blood_group (some (.s " a B "))))) =
        normalize_blood_group (some (.s " a B ")) :=
  claim_C4 (some (.s " a B "))

/-- Claim C4 counterexample: the phone normalizer is not idempotent —
removing `"+91"` can splice a new `"+91"` together, so normalizing
`"++9191"` gives `"+91"`, which normalizes again to `""`. -/
theorem claim_C4_counterexample :
    normalize_phone (some (.s (normalize_phone (some (.s "++9191"))))) ≠
      normalize_phone (some (.s "++9191")) := by decide

/-- Claim C5, amended: for every DB record present in the badge index at a
badge inside the checked range [1, 417]: an invalid uuid (length ≠ 36 or
separator count ≠ 4, per `uuidBad`) always contributes an issue and the
record is flagged INVALID_DATA; a present age that is non-numeric or an
integer outside [1, 120] is always flagged, while ages in [1, 120]
(including the boundaries 1 and 120) produce no age issue.  Records
indexed outside [1, 417] are never checked (see the counterexample). -/
theorem claim_C5 (m : List (Int × Participant)) (b : Int) (p : Participant)
    (hb1 : 1 ≤ b) (hb2 : b ≤ 417) (hl : idxLookup m b = some p) :
    (uuidBad p.uuid = true →
      ("invalid UUID: " ++ showOpt p.uuid) ∈ issuesOf b p ∧
        (⟨b, p.name, issuesOf b p⟩ : Finding) ∈ invalid_data m) ∧
    (∀ v, p.age = some v →
      (pyIntOfVal v = none →
        ageIssues p ≠ [] ∧
          (⟨b, p.name, issuesOf b p⟩ : Finding) ∈ invalid_data m) ∧
      (∀ a, pyIntOfVal v = some a →
        ((a < 1 ∨ 120 < a) →
          ageIssues p ≠ [] ∧
            (⟨b, p.name, issuesOf b p⟩ : Finding) ∈ invalid_data m) ∧
        (1 ≤ a → a ≤ 120 → ageIssues p = []))) := by
  have hbc : b ∈ cohort := cohort_mem.mpr ⟨hb1, hb2⟩
  constructor
  · intro hu
    have hmem := uuid_flagged (b := b) (p := p) hu
    exact ⟨hmem, invalid_data_mem hbc hl (List.ne_nil_of_mem hmem)⟩
  · intro v hv
    constructor
    · intro hnone
      have hage : ageIssues p = ["non-numeric age: " ++ strOfScalar v] :=
        ageIssues_nonnum hv hnone
      have hmem : ("non-numeric age: " ++ strOfScalar v) ∈ issuesOf b p := by
        apply age_msg_flagged
        rw [hage]
        exact List.mem_singleton.mpr rfl
      refine ⟨by rw [hage]; simp, invalid_data_mem hbc hl (List.ne_nil_of_mem hmem)⟩
    · intro a ha
      constructor
      · intro hout
        have hage : ageIssues p = ["invalid age: " ++ intStr a] :=
          ageIssues_out_of_range hv ha (by omega)
        have hmem : ("invalid age: " ++ intStr a) ∈ issuesOf b p := by
          apply age_msg_flagged
          rw [hage]
          exact List.mem_singleton.mpr rfl
        refine ⟨by rw [hage]; simp, invalid_data_mem hbc hl (List.ne_nil_of_mem hmem)⟩
      · intro h1 h2
        exact ageIssues_in_range hv ha h1 h2

/-- Claim C5 witness: the record `pBad` at badge 2 with invalid uuid is
flagged INVALID_DATA in the one-record index. -/
theorem claim_C5_witness :
    uuidBad pBad.uuid = true ∧
      (("invalid UUID: " ++ showOpt pBad.uuid) ∈ issuesOf 2 pBad ∧
        (⟨2, pBad.name, issuesOf 2 pBad⟩ : Finding) ∈ invalid_data mBad) :=
  ⟨by decide,
    (claim_C5 mBad 2 pBad (by decide) (by decide) (by decide)).1 (by decide)⟩

/-- Claim C5 counterexample: a record whose token derives badge 418 sits
in the badge index with an invalid uuid, yet the validity check (which
iterates only badges 1..417) produces no finding at all. -/
theorem claim_C5_counterexample :
    by_badge [p418] = .ok [(418, p418)] ∧ uuidBad p418.uuid = true ∧
      invalid_data [(418, p418)] = [] :=
  ⟨by decide, by decide, by decide⟩

/-- Claim C6, amended: in `verify_all_participants` every category is in
strictly ascending badge order by construction (missing badges, missing
files, incomplete data, invalid data), and the file listing is sorted;
but the cross-source discrepancy list of `compare_data` follows the
spreadsheet row order, not ascending badge order (see the
counterexample). -/
theorem claim_C6 (m : List (Int × Participant)) (fb : List Int)
    (files : List String) :
    List.Pairwise (· < ·) (missing_badges m) ∧
    List.Pairwise (· < ·) (pyMissingFiles fb) ∧
    List.Pairwise (· < ·) ((incomplete_data m).map Finding.badge) ∧
    List.Pairwise (· < ·) ((invalid_data m).map Finding.badge) ∧
    (∀ l, (verify_qr_code_files (some files)).1 = some l →
      List.Sorted (· ≤ ·) l) :=
  ⟨missing_badges_sorted m, pyMissingFiles_sorted fb,
    incomplete_data_badges_sorted m, invalid_data_badges_sorted m,
    verify_files_sorted files⟩

/-- Claim C6 witness: the ascending-order guarantees evaluated at the
empty index and empty file data. -/
theorem claim_C6_witness :
    List.Pairwise (· < ·) (missing_badges []) ∧
      List.Pairwise (· < ·) ((invalid_data []).map Finding.badge) :=
  ⟨(claim_C6 [] [] []).1, (claim_C6 [] [] []).2.2.2.1⟩

/-- Claim C6 counterexample: with spreadsheet rows ordered badge 5 then
badge 2, both mismatching, `compare_data` returns the discrepancies in
row order `[5, 2]`, which is not ascending. -/
theorem claim_C6_counterexample :
    discBadges (compare_data [row5, row2] [p5, p2]) = [5, 2] ∧
      ¬ List.Sorted (· ≤ ·) (discBadges (compare_data [row5, row2] [p5, p2])) :=
  ⟨by decide, by decide⟩

/-- Claim C7, amended: the textual summary is printed before the report
write, so a run that reaches the compare phase always surfaces the full
summary whether or not the write succeeds; but a write failure is not
caught — the bare `open`/`json.dump` lets the exception propagate and the
run fails (see the counterexample), rather than logging the error. -/
theorem claim_C7 (rows : List Row) (db : List Participant)
    (ds : List Discrepancy) (k : Nat)
    (h : compare_data rows db = .ok (ds, k)) :
    (mainFinal rows db true).1 =
        summaryLines ds k ++ ["Report saved to verification_report.json"] ∧
      (mainFinal rows db false).1 = summaryLines ds k ∧
      (mainFinal rows db false).2 = .error "report write failed" :=
  mainFinal_summary h

/-- Claim C7 witness: the amended statement evaluated on the empty run. -/
theorem claim_C7_witness :
    compare_data [] [] = .ok ([], 0) ∧
      ((mainFinal [] [] true).1 =
          summaryLines [] 0 ++ ["Report saved to verification_report.json"] ∧
        (mainFinal [] [] false).1 = summaryLines [] 0 ∧
        (mainFinal [] [] false).2 = .error "report write failed") :=
  ⟨by decide, claim_C7 [] [] [] 0 (by decide)⟩

/-- Claim C7 counterexample: when the write fails, the run itself fails
(the error propagates) — the summary was printed, but the write error is
not merely logged. -/
theorem claim_C7_counterexample :
    mainFinal [] [] false =
      (["Matching records: 0", "Discrepancies found: 0"],
        .error "report write failed") := by decide

/-- Claim C8: when the QR-code directory does not exist,
`verify_qr_code_files` returns the "directory not found" finding as a
value rather than raising, and the run continues through the
completeness, validity and report phases: `main` still produces the full
report with the computed categories. -/
theorem claim_C8 (db : List Participant) (m : List (Int × Participant))
    (h : by_badge db = .ok m) :
    verify_qr_code_files none = (none, some "QR codes directory not found") ∧
      mainAll db none true = .ok ⟨db.length, missing_badges m,
        incomplete_data m, invalid_data m,
        all_passed (missing_badges m) none (incomplete_data m)
          (invalid_data m)⟩ :=
  ⟨rfl, mainAll_eq_of_by_badge h none⟩

/-- Claim C8 witness: the statement evaluated on the empty database. -/
theorem claim_C8_witness :
    by_badge [] = .ok [] ∧
      (verify_qr_code_files none = (none, some "QR codes directory not found") ∧
        mainAll [] none true = .ok ⟨0, missing_badges [],
          incomplete_data [], invalid_data [],
          all_passed (missing_badges []) none (incomplete_data [])
            (invalid_data [])⟩) :=
  ⟨rfl, claim_C8 [] [] rfl⟩

/-- Claim C9: index construction is last-write-wins — whenever the loop
completes without a raised derivation error, the index maps each truthy
badge to the record occurring latest in iteration order among those whose
token derives it, and a collision produces no error and no finding (the
construction just overwrites). -/
theorem claim_C9 (ps : List Participant) (m : List (Int × Participant))
    (b : Int) (h : by_badge ps = .ok m) (hb : b ≠ 0) :
    idxLookup m b = lastDeriving ps b :=
  by_badge_lookup h hb

/-- Claim C9 witness: two records both deriving badge 7 build an index
without error in which badge 7 maps to the later record. -/
theorem claim_C9_witness :
    by_badge [pColA, pColB] = .ok [(7, pColB), (7, pColA)] ∧ (7 : Int) ≠ 0 ∧
      idxLookup [(7, pColB), (7, pColA)] 7 = lastDeriving [pColA, pColB] 7 ∧
      lastDeriving [pColA, pColB] 7 = some pColB :=
  ⟨by decide, by decide,
    claim_C9 [pColA, pColB] [(7, pColB), (7, pColA)] 7 (by decide) (by decide),
    by decide⟩

/-- Claim C10: a record whose qrToken is `"PALITANA_YATRA_0"` derives
badge 0, which the truthiness test `if badge:` treats as a failed
derivation: wherever such a record occurs, the badge index is unchanged,
and consequently it is never subject to the completeness, validity or
cross-source checks and never appears in any finding list of either
script. -/
theorem claim_C10 (r : Participant) (hr : r.qrToken = some "PALITANA_YATRA_0")
    (ps1 ps2 : List Participant) :
    extract_badge_number r.qrToken = .ok (some 0) ∧
    by_badge (ps1 ++ r :: ps2) = by_badge (ps1 ++ ps2) ∧
    (∀ fs w, (mainAll (ps1 ++ r :: ps2) fs w).map reportFindings =
      (mainAll (ps1 ++ ps2) fs w).map reportFindings) ∧
    (∀ rows, compare_data rows (ps1 ++ r :: ps2) =
      compare_data rows (ps1 ++ ps2)) :=
  ⟨extract_zero_token hr, by_badge_skip_zero hr ps1 ps2,
    fun fs w => mainAll_findings_skip_zero hr ps1 ps2 fs w,
    fun rows => compare_data_skip_zero hr rows ps1 ps2⟩

/-- Claim C10 witness: the badge-0 record `pZero` leaves the index and
the compare run unchanged. -/
theorem claim_C10_witness :
    pZero.qrToken = some "PALITANA_YATRA_0" ∧
      by_badge [pZero] = by_badge [] ∧
      compare_data [] [pZero] = compare_data [] [] :=
  ⟨rfl, (claim_C10 pZero rfl [] []).2.1, (claim_C10 pZero rfl [] []).2.2.2 []⟩

end QRT
